import Mathlib

/-!
Verification development for the nutrition-tracking program in src/main.py.

The core being modelled is the free-text food-entry analyser
(parse_food_entry), the daily ledger (the per-day entry list and running
totals mutated by handle_food_message, add_food and undo), and the
retention pass (midnight_reset).  Numeric values are modelled as exact
rationals; Python text handling is modelled on lists of characters, and
the two regular-expression forms of parse_food_entry are modelled by a
list-of-successes engine that reproduces the backtracking priority order
of the Python re module (leftmost alternative first, greedy repetition
longest first, lazy repetition shortest first).

The food catalog (foods_database.py) is not part of the sources; the
catalog snapshot and the standard-unit table are therefore passed as
explicit association-list parameters, and get_food_info is modelled from
the spec as an exact-name lookup.
-/

/-- Macro values, one field per tracked quantity, as in the totals
dictionaries of src/main.py. -/
structure Macros where
  kcal : ℚ
  proteines : ℚ
  lipides : ℚ
  glucides : ℚ
deriving DecidableEq

/-- Elementwise sum of macro values, as performed key by key in
handle_food_message and add_food. -/
def addM (a b : Macros) : Macros :=
  ⟨a.kcal + b.kcal, a.proteines + b.proteines, a.lipides + b.lipides, a.glucides + b.glucides⟩

/-- Elementwise difference of macro values, as performed key by key in undo. -/
def subM (a b : Macros) : Macros :=
  ⟨a.kcal - b.kcal, a.proteines - b.proteines, a.lipides - b.lipides, a.glucides - b.glucides⟩

/-- The all-zero totals a fresh day starts with in init_day. -/
def zeroM : Macros := ⟨0, 0, 0, 0⟩

/-- Elementwise sum of a list of macro values. -/
def mSum (l : List Macros) : Macros := l.foldr addM zeroM

/-- One committed ledger entry, mirroring the entry dictionaries built in
handle_food_message and add_food. -/
structure Entry where
  food : String
  quantity : ℚ
  macros : Macros
  time : String
deriving DecidableEq

/-- The per-day record held in daily_data: the ordered entry list and the
running totals. -/
structure DayRecord where
  entries : List Entry
  totals : Macros
deriving DecidableEq

/-- The fresh day created by init_day. -/
def initDay : DayRecord := ⟨[], zeroM⟩

/-- Appending one entry to a day: the entry list and the totals are
updated in the same step, as in handle_food_message and add_food. -/
def appendEntry (d : DayRecord) (e : Entry) : DayRecord :=
  ⟨d.entries ++ [e], addM d.totals e.macros⟩

/-- The undo handler on one day (src/main.py lines 282 to 300): on an
empty day it reports the empty-ledger condition (none) and mutates
nothing; otherwise it removes the most recently appended entry and
subtracts its macros from the totals elementwise, returning the removed
entry together with the new day state. -/
def undoDay (d : DayRecord) : Option (Entry × DayRecord) :=
  match d.entries.getLast? with
  | none => none
  | some e => some (e, ⟨d.entries.dropLast, subM d.totals e.macros⟩)

/-- The day state after an undo request: unchanged when the day was
empty, otherwise the state produced by undoDay. -/
def undoState (d : DayRecord) : DayRecord :=
  match undoDay d with
  | some r => r.2
  | none => d

/-! Character-level utilities mirroring the Python string operations. -/

/-- Model of the Python lower method (ASCII case folding). -/
def pyLower (cs : List Char) : List Char := cs.map Char.toLower

/-- Model of the Python strip method: whitespace removed from both ends. -/
def pyStrip (cs : List Char) : List Char :=
  ((cs.dropWhile Char.isWhitespace).reverse.dropWhile Char.isWhitespace).reverse

/-- Word characters for the word-boundary assertions of the re module. -/
def wordChar (c : Char) : Bool := c.isAlphanum || c = '_'

/-- Substring test on character lists, modelling the Python in operator
on strings. -/
def substrList (a : List Char) : List Char → Bool
  | [] => a.isEmpty
  | c :: r => a.isPrefixOf (c :: r) || substrList a r

/-- Decimal digit accumulator, modelling the integer part that the Python
float constructor reads from a digit run. -/
def natOfDigits (l : List Char) : Nat :=
  l.foldl (fun a c => a * 10 + (c.toNat - 48)) 0

/-- Model of float applied to a matched numeral after the replace of a
comma by a dot in src/main.py: digits, then an optional dot and a
fractional digit run, read as an exact rational. -/
def pyFloat (cs : List Char) : ℚ :=
  let ds := cs.map (fun c => if c = ',' then '.' else c)
  let ip := ds.takeWhile (fun c => c != '.')
  let fp := (ds.dropWhile (fun c => c != '.')).drop 1
  if fp.isEmpty then (natOfDigits ip : ℚ)
  else (natOfDigits ip : ℚ) + (natOfDigits fp : ℚ) / (10 : ℚ) ^ fp.length

/-! Splitting a message into items.

parse_food_entry first splits the lowercased, stripped text with
re.split on the pattern alternation of a run of commas or newlines and
the word et between word boundaries.  splitGo scans left to right with
one character of fuel per step: inRun records that the previous
character belonged to a comma or newline run already emitted, prevW
records whether the previous character was a word character (false at
the start of the text), acc holds the current segment reversed. -/

/-- True when the scanner standing on a letter e completes the word et:
the next character is t and the character after it, if any, is not a
word character. -/
def etHere : List Char → Bool
  | [] => false
  | t :: r =>
    t = 't' && (match r with
      | [] => true
      | d :: _ => !wordChar d)

/-- Fuelled scanner for the re.split call of parse_food_entry. -/
def splitGo : Nat → Bool → Bool → List Char → List Char → List (List Char)
  | 0, _, _, acc, _ => [acc.reverse]
  | _ + 1, _, _, acc, [] => [acc.reverse]
  | fuel + 1, inRun, prevW, acc, c :: rest =>
    if c = ',' ∨ c = '\n' then
      if inRun then splitGo fuel true false acc rest
      else acc.reverse :: splitGo fuel true false [] rest
    else if c = 'e' && !prevW && etHere rest then
      acc.reverse :: splitGo fuel false true [] rest.tail
    else
      splitGo fuel false (wordChar c) (c :: acc) rest

/-- The item segments of a message, in order, as produced by the re.split
call of parse_food_entry. -/
def splitItems (cs : List Char) : List (List Char) :=
  splitGo (cs.length + 1) false false [] cs

/-! A list-of-successes engine for the two item patterns.

A matcher sends the remaining input to the list of all (captured value,
remaining input) outcomes, ordered by the backtracking priority of the
re module; the first element of the list is the match re would produce. -/

/-- Matchers over character lists, outcomes in priority order. -/
def RegM (α : Type) : Type := List Char → List (α × List Char)

/-- Succeed without consuming input. -/
def rxPure {α : Type} (a : α) : RegM α := fun cs => [(a, cs)]

/-- Sequencing: every outcome of the first matcher is continued with the
second, preserving priority order. -/
def rxBind {α β : Type} (p : RegM α) (f : α → RegM β) : RegM β :=
  fun cs => ((p cs).map (fun r => f r.1 r.2)).foldr (· ++ ·) []

/-- Ordered alternation: outcomes of the left branch take priority. -/
def rxAlt {α : Type} (p q : RegM α) : RegM α := fun cs => p cs ++ q cs

/-- Literal text. -/
def rxLit (s : List Char) : RegM (List Char) :=
  fun cs => if s.isPrefixOf cs then [(s, cs.drop s.length)] else []

/-- One character from a set. -/
def rxCharIn (l : List Char) : RegM Char :=
  fun cs =>
    match cs with
    | [] => []
    | c :: r => if l.contains c then [(c, r)] else []

/-- Greedy repetition of a character class: longest capture first; when
allowEmpty is false at least one character is required. -/
def rxGreedy (f : Char → Bool) (allowEmpty : Bool) : RegM (List Char) :=
  fun cs =>
    let n := (cs.takeWhile f).length
    let ks := (List.range (n + 1)).map (fun i => n - i)
    let ks := if allowEmpty then ks else ks.filter (fun k => decide (0 < k))
    ks.map (fun k => (cs.take k, cs.drop k))

/-- Greedy whitespace star. -/
def rxWsStar : RegM (List Char) := rxGreedy Char.isWhitespace true

/-- Greedy whitespace plus. -/
def rxWsPlus : RegM (List Char) := rxGreedy Char.isWhitespace false

/-- Greedy digit run, at least one digit. -/
def rxDigitsPlus : RegM (List Char) := rxGreedy Char.isDigit false

/-- Lazy dot-plus: shortest capture first, at least one character.  Items
contain no newline because the message was split on newlines first, so
the dot may take any character. -/
def rxLazyPlus : RegM (List Char) :=
  fun cs => (List.range cs.length).map (fun i => (cs.take (i + 1), cs.drop (i + 1)))

/-- Greedy dot-plus followed by the end anchor: succeeds exactly when the
rest is nonempty, capturing all of it. -/
def rxRestPlus : RegM (List Char) :=
  fun cs => if cs.isEmpty then [] else [(cs, [])]

/-- End-of-input anchor. -/
def rxEnd : RegM Unit := fun cs => if cs.isEmpty then [((), [])] else []

/-- The numeral group of the patterns: a digit run with an optional
decimal part introduced by a dot or a comma, the decimal reading tried
before the bare reading as the re module does. -/
def rxNumber : RegM (List Char) :=
  rxBind rxDigitsPlus (fun d1 =>
    rxAlt
      (rxBind (rxCharIn ['.', ',']) (fun c =>
        rxBind rxDigitsPlus (fun d2 => rxPure (d1 ++ c :: d2))))
      (rxPure d1))

/-- The unit alternatives of the item patterns in source order: the
alternation g, gr, grammes with optional s, ml, cl, l, kg expands to
these eight literals in this priority order. -/
def unitAlts : List (List Char) :=
  [("g").data, ("gr").data, ("grammes").data, ("gramme").data,
   ("ml").data, ("cl").data, ("l").data, ("kg").data]

/-- The optional unit group: each alternative in order, then the empty
match. -/
def rxUnitOpt : RegM (List Char) :=
  fun cs => ((unitAlts.map (fun u => rxLit u cs)).foldr (· ++ ·) []) ++ [(([] : List Char), cs)]

/-- The apostrophe character. -/
def apos : Char := Char.ofNat 39

/-- The optional connector group of the first pattern: the word de
followed by whitespace, else the letter d with an apostrophe, else
nothing. -/
def rxConnOpt : RegM Unit :=
  rxAlt (rxBind (rxLit (("de").data)) (fun _ => rxBind rxWsPlus (fun _ => rxPure ())))
    (rxAlt (rxBind (rxLit ['d', apos]) (fun _ => rxPure ())) (rxPure ()))

/-- The first item pattern of parse_food_entry: numeral, optional
whitespace, optional unit, optional whitespace, optional connector, then
the food text to the end.  Captures numeral, unit and food text. -/
def pattern1 : RegM (List Char × List Char × List Char) :=
  rxBind rxNumber (fun q =>
    rxBind rxWsStar (fun _ =>
      rxBind rxUnitOpt (fun u =>
        rxBind rxWsStar (fun _ =>
          rxBind rxConnOpt (fun _ =>
            rxBind rxRestPlus (fun f => rxPure (q, u, f)))))))

/-- The inverted item pattern of parse_food_entry: lazy food text,
whitespace, numeral, optional whitespace, optional unit, end anchor.
Captures food text, numeral and unit. -/
def patternInv : RegM (List Char × List Char × List Char) :=
  rxBind rxLazyPlus (fun f =>
    rxBind rxWsPlus (fun _ =>
      rxBind rxNumber (fun q =>
        rxBind rxWsStar (fun _ =>
          rxBind rxUnitOpt (fun u =>
            rxBind rxEnd (fun _ => rxPure (f, q, u)))))))

/-! The food catalog parameters. -/

/-- Modelled from the spec: get_food_info of foods_database.py is not
under src, and the spec describes the catalog interface as an exact-name
lookup returning the per-100g macro values; the catalog snapshot is
passed as an association list. -/
def get_food_info (db : List (String × Macros)) (name : String) : Option Macros :=
  (db.find? (fun p => p.1 == name)).map (fun p => p.2)

/-- Scaling per-100g macro values to a gram amount, as in parse_food_entry. -/
def scaleMacros (m : Macros) (g : ℚ) : Macros :=
  ⟨m.kcal * (g / 100), m.proteines * (g / 100), m.lipides * (g / 100), m.glucides * (g / 100)⟩

/-- The exact-name fall-back of the bare-count branch: when the loop over
the standard units found no truthy per-unit weight, the source multiplies
by the standard-unit weight of the exact food name provided the food is
in the catalog and has a standard unit, and otherwise keeps the bare
number as grams. -/
def bareFallback (su : List (String × ℚ)) (db : List (String × Macros))
    (q : ℚ) (food : String) : ℚ :=
  match get_food_info db food with
  | some _ =>
    match su.find? (fun p => p.1 == food) with
    | some p => q * p.2
    | none => q
  | none => q

/-- The bare-count branch of parse_food_entry: the first standard-unit
name related to the food name by substring containment in either
direction supplies the per-unit weight; a weight of zero is falsy in
Python and falls through to the fall-back, as does finding no name. -/
def bareCount (su : List (String × ℚ)) (db : List (String × Macros))
    (q : ℚ) (food : String) : ℚ :=
  match su.find? (fun p => substrList p.1.data food.data || substrList food.data p.1.data) with
  | some p => if p.2 ≠ 0 then q * p.2 else bareFallback su db q food
  | none => bareFallback su db q food

/-- The unit-conversion step of parse_food_entry (src/main.py lines 146
to 177): kilograms scale by 1000, centilitres by 10, litres by 1000,
millilitres by 1; with a gram unit the quantity is already grams; with no
unit and a quantity of at most 20 the bare-count branch runs, otherwise
the bare number is grams. -/
def resolveGrams (su : List (String × ℚ)) (db : List (String × Macros))
    (unit : List Char) (q : ℚ) (food : String) : ℚ :=
  match unit with
  | ['k', 'g'] => q * 1000
  | ['c', 'l'] => q * 10
  | ['l'] => q * 1000
  | ['m', 'l'] => q
  | [] => if q ≤ 20 then bareCount su db q food else q
  | _ => q

/-- One parsed declaration: food name, resolved grams, and the scaled
macro values when the catalog lookup succeeded. -/
structure Decl where
  food : String
  grams : ℚ
  macros : Option Macros
deriving DecidableEq

/-- Builds the declaration for one matched item, parameterised by the
grams resolver: the food name is looked up by exact name and its per-100g
macros scaled by grams over 100; a missing food still yields a
declaration carrying the name and grams with no macros. -/
def mkDeclWith (res : List Char → ℚ → String → ℚ) (db : List (String × Macros))
    (q : ℚ) (unit : List Char) (food : String) : Decl :=
  let grams := res unit q food
  ⟨food, grams, (get_food_info db food).map (fun fi => scaleMacros fi grams)⟩

/-- One item of parse_food_entry, parameterised by the grams resolver:
the first pattern is tried, then the inverted pattern, and an item
matching neither is dropped.  The captured food text is stripped as in
the source. -/
def parseItemWith (res : List Char → ℚ → String → ℚ) (db : List (String × Macros))
    (item : List Char) : Option Decl :=
  match (pattern1 item).head? with
  | some r => some (mkDeclWith res db (pyFloat r.1.1) r.1.2.1 ⟨pyStrip r.1.2.2⟩)
  | none =>
    match (patternInv item).head? with
    | some r => some (mkDeclWith res db (pyFloat r.1.2.1) r.1.2.2 ⟨pyStrip r.1.1⟩)
    | none => none

/-- parse_food_entry of src/main.py: lowercase and strip the message,
split it into items, strip each item, drop empty items and items matching
neither pattern, and build one declaration per remaining item in input
order. -/
def parse_food_entry (db : List (String × Macros)) (su : List (String × ℚ))
    (text : String) : List Decl :=
  (splitItems (pyStrip (pyLower text.data))).filterMap (fun it =>
    let it2 := pyStrip it
    if it2.isEmpty then none else parseItemWith (resolveGrams su db) db it2)

/-- The body of handle_food_message (src/main.py lines 491 to 503): each
declaration with resolved macros is appended to the day together with its
macros added into the totals in the same step; declarations with no
macros are skipped. -/
def handle_food_message (db : List (String × Macros)) (su : List (String × ℚ))
    (t : String) (d : DayRecord) (text : String) : DayRecord :=
  (parse_food_entry db su text).foldl (fun day dec =>
    match dec.macros with
    | some m => appendEntry day ⟨dec.food, dec.grams, m, t⟩
    | none => day) d

/-! The quick-add grammar of add_food. -/

/-- The required gram unit of the quick-add pattern, alternatives in
source priority order. -/
def rxUnitG : RegM (List Char) :=
  fun cs =>
    ([("g").data, ("gr").data, ("grammes").data, ("gramme").data].map
      (fun u => rxLit u cs)).foldr (· ++ ·) []

/-- The with-grams quick-add pattern of add_food: grams numeral, gram
unit, then the four macro numerals each followed by its marker; matched
as a prefix, trailing text being ignored as re.match does. -/
def patternQA : RegM (List Char × List Char × List Char × List Char × List Char) :=
  rxBind rxNumber (fun g =>
    rxBind rxWsStar (fun _ =>
      rxBind rxUnitG (fun _ =>
        rxBind rxWsPlus (fun _ =>
          rxBind rxNumber (fun k =>
            rxBind rxWsStar (fun _ =>
              rxBind (rxLit (("kcal").data)) (fun _ =>
                rxBind rxWsPlus (fun _ =>
                  rxBind rxNumber (fun p =>
                    rxBind rxWsStar (fun _ =>
                      rxBind (rxLit (("p").data)) (fun _ =>
                        rxBind rxWsPlus (fun _ =>
                          rxBind rxNumber (fun li =>
                            rxBind rxWsStar (fun _ =>
                              rxBind (rxLit (("l").data)) (fun _ =>
                                rxBind rxWsPlus (fun _ =>
                                  rxBind rxNumber (fun c =>
                                    rxBind rxWsStar (fun _ =>
                                      rxBind (rxLit (("g").data)) (fun _ =>
                                        rxPure (g, k, p, li, c))))))))))))))))))))

/-- The no-grams quick-add pattern of add_food: the four macro numerals
with their markers, no leading grams group. -/
def patternQANoQty : RegM (List Char × List Char × List Char × List Char) :=
  rxBind rxNumber (fun k =>
    rxBind rxWsStar (fun _ =>
      rxBind (rxLit (("kcal").data)) (fun _ =>
        rxBind rxWsPlus (fun _ =>
          rxBind rxNumber (fun p =>
            rxBind rxWsStar (fun _ =>
              rxBind (rxLit (("p").data)) (fun _ =>
                rxBind rxWsPlus (fun _ =>
                  rxBind rxNumber (fun li =>
                    rxBind rxWsStar (fun _ =>
                      rxBind (rxLit (("l").data)) (fun _ =>
                        rxBind rxWsPlus (fun _ =>
                          rxBind rxNumber (fun c =>
                            rxBind rxWsStar (fun _ =>
                              rxBind (rxLit (("g").data)) (fun _ =>
                                rxPure (k, p, li, c))))))))))))))))

/-- The quick-add branch of add_food (src/main.py lines 355 to 407) on
the joined argument text: text containing a pipe goes to the database
extension mode instead; otherwise the with-grams pattern is tried on the
lowercased text, then the no-grams pattern with grams defaulting to 100,
and the macro numerals are recorded literally. -/
def quickAddParse (args : String) : Option (ℚ × Macros) :=
  if args.data.contains '|' then none
  else
    match (patternQA (pyLower args.data)).head? with
    | some r =>
      some (pyFloat r.1.1,
        ⟨pyFloat r.1.2.1, pyFloat r.1.2.2.1, pyFloat r.1.2.2.2.1, pyFloat r.1.2.2.2.2⟩)
    | none =>
      match (patternQANoQty (pyLower args.data)).head? with
      | some r =>
        some (100, ⟨pyFloat r.1.1, pyFloat r.1.2.1, pyFloat r.1.2.2.1, pyFloat r.1.2.2.2⟩)
      | none => none

/-- The ledger mutation of the quick-add branch: on a successful parse an
entry with the parsed grams as quantity and the literal macro numerals is
appended; otherwise nothing changes.  The source interpolates the gram
count into the display name of the entry; the label is fixed here, the
claims concerning only quantity and macros. -/
def quickAddApply (t : String) (d : DayRecord) (args : String) : DayRecord :=
  match quickAddParse args with
  | some r => appendEntry d ⟨("ajout manuel"), r.1, r.2, t⟩
  | none => d

/-! Retention. -/

/-- The retention pass of midnight_reset (src/main.py lines 571 to 588),
with date keys as integer day numbers and the retention window exposed as
a parameter as the spec requires: every day record strictly older than
the reference minus the window is deleted, every other record is kept.
The source hardcodes a cutoff of the reference time minus four days; run
at its scheduled one minute past midnight this deletes exactly the day
keys strictly older than the reference day minus three, the spec default. -/
def prune (reference retain : ℤ) (ledger : List (ℤ × DayRecord)) : List (ℤ × DayRecord) :=
  ledger.filter (fun p => !(decide (p.1 < reference - retain)))

/-! Reachable ledger day states. -/

/-- Day states reachable from a fresh day through the mutation paths of
the program: the message handler, the quick-add handler, a single entry
append, and undo. -/
inductive Reachable (db : List (String × Macros)) (su : List (String × ℚ)) : DayRecord → Prop
  | init : Reachable db su initDay
  | append (d : DayRecord) (e : Entry) : Reachable db su d → Reachable db su (appendEntry d e)
  | msg (d : DayRecord) (t text : String) :
      Reachable db su d → Reachable db su (handle_food_message db su t d text)
  | quick (d : DayRecord) (t args : String) :
      Reachable db su d → Reachable db su (quickAddApply t d args)
  | undo (d : DayRecord) : Reachable db su d → Reachable db su (undoState d)

/-! The fall-back-free variant of the grams resolver, for the
refinement claim: the exact-name fall-back branch is removed, leaving the
bare number when the substring pass found no truthy weight. -/

/-- The bare-count branch with the exact-name fall-back branch removed. -/
def bareCountNF (su : List (String × ℚ)) (q : ℚ) (food : String) : ℚ :=
  match su.find? (fun p => substrList p.1.data food.data || substrList food.data p.1.data) with
  | some p => if p.2 ≠ 0 then q * p.2 else q
  | none => q

/-- The unit-conversion step with the exact-name fall-back branch removed. -/
def resolveGramsNF (su : List (String × ℚ)) (unit : List Char) (q : ℚ) (food : String) : ℚ :=
  match unit with
  | ['k', 'g'] => q * 1000
  | ['c', 'l'] => q * 10
  | ['l'] => q * 1000
  | ['m', 'l'] => q
  | [] => if q ≤ 20 then bareCountNF su q food else q
  | _ => q

/-- parse_food_entry with the exact-name fall-back branch removed. -/
def parse_food_entry_nofb (db : List (String × Macros)) (su : List (String × ℚ))
    (text : String) : List Decl :=
  (splitItems (pyStrip (pyLower text.data))).filterMap (fun it =>
    let it2 := pyStrip it
    if it2.isEmpty then none else parseItemWith (resolveGramsNF su) db it2)

/-! Helper lemmas about macro arithmetic and the ledger operations. -/

theorem addM_assoc (a b c : Macros) : addM (addM a b) c = addM a (addM b c) := by
  cases a; cases b; cases c; simp [addM]; refine ⟨?_, ?_, ?_, ?_⟩ <;> ring

theorem addM_zeroM (a : Macros) : addM a zeroM = a := by
  cases a; simp [addM, zeroM]

theorem zeroM_addM (a : Macros) : addM zeroM a = a := by
  cases a; simp [addM, zeroM]

theorem subM_addM_cancel (a b : Macros) : subM (addM a b) b = a := by
  cases a; cases b; simp [addM, subM]

theorem mSum_append (l : List Macros) (m : Macros) : mSum (l ++ [m]) = addM (mSum l) m := by
  induction l with
  | nil => simp [mSum, addM_zeroM, zeroM_addM]
  | cons a t ih => simp only [List.cons_append, mSum, List.foldr_cons] at *; rw [ih, ← addM_assoc]

/-- The totals invariant of a day record: the running totals equal the
elementwise sum of the macros of the entries. -/
def totalsInv (d : DayRecord) : Prop :=
  d.totals = mSum (d.entries.map Entry.macros)

theorem totalsInv_appendEntry (d : DayRecord) (e : Entry) (h : totalsInv d) :
    totalsInv (appendEntry d e) := by
  unfold totalsInv appendEntry at *
  simp only [List.map_append, List.map_cons, List.map_nil, mSum_append]
  rw [h]

theorem totalsInv_undoState (d : DayRecord) (h : totalsInv d) : totalsInv (undoState d) := by
  rcases List.eq_nil_or_concat d.entries with hnil | ⟨l, e, hcat⟩
  · unfold undoState undoDay
    rw [hnil]
    simpa using h
  · rw [List.concat_eq_append] at hcat
    unfold undoState undoDay totalsInv at *
    rw [hcat] at h ⊢
    simp only [List.getLast?_concat, List.dropLast_concat]
    rw [h]
    simp only [List.map_append, List.map_cons, List.map_nil, mSum_append]
    simpa using (subM_addM_cancel (mSum (l.map Entry.macros)) e.macros)

theorem totalsInv_handleStep (t : String) (day : DayRecord) (dec : Decl) (h : totalsInv day) :
    totalsInv (match dec.macros with
      | some m => appendEntry day ⟨dec.food, dec.grams, m, t⟩
      | none => day) := by
  cases dec.macros with
  | some m => exact totalsInv_appendEntry day _ h
  | none => exact h

theorem totalsInv_foldl (t : String) (ds : List Decl) (day : DayRecord) (h : totalsInv day) :
    totalsInv (ds.foldl (fun day dec =>
      match dec.macros with
      | some m => appendEntry day ⟨dec.food, dec.grams, m, t⟩
      | none => day) day) := by
  induction ds generalizing day with
  | nil => exact h
  | cons a tl ih => exact ih _ (totalsInv_handleStep t day a h)

theorem totalsInv_handle (db : List (String × Macros)) (su : List (String × ℚ))
    (t text : String) (d : DayRecord) (h : totalsInv d) :
    totalsInv (handle_food_message db su t d text) :=
  totalsInv_foldl t (parse_food_entry db su text) d h

theorem totalsInv_quickAdd (t args : String) (d : DayRecord) (h : totalsInv d) :
    totalsInv (quickAddApply t d args) := by
  unfold quickAddApply
  cases quickAddParse args with
  | some r => exact totalsInv_appendEntry d _ h
  | none => exact h

/-- C1: for every reachable ledger state produced by any sequence of
append and undo operations on a day, through any of the mutation paths of
the program, the day totals equal the elementwise sum of the macros of
the day entries. -/
theorem ledger_totals_invariant (db : List (String × Macros)) (su : List (String × ℚ))
    (d : DayRecord) (h : Reachable db su d) :
    d.totals = mSum (d.entries.map Entry.macros) := by
  induction h with
  | init => rfl
  | append d e _ ih => exact totalsInv_appendEntry d e ih
  | msg d t text _ ih => exact totalsInv_handle db su t text d ih
  | quick d t args _ ih => exact totalsInv_quickAdd t args d ih
  | undo d _ ih => exact totalsInv_undoState d ih

/-- Witness for C1 at a concrete reachable state: a fresh day mutated by
one parsed message and one quick add, then an undo. -/
theorem ledger_totals_invariant_witness :
    (undoState (quickAddApply ("13:00")
        (handle_food_message [(("rice"), ⟨130, 27/10, 3/10, 28⟩)] [] ("12:00") initDay ("200g rice"))
        ("30g 150kcal 10p 5l 8g"))).totals
      = mSum ((undoState (quickAddApply ("13:00")
        (handle_food_message [(("rice"), ⟨130, 27/10, 3/10, 28⟩)] [] ("12:00") initDay ("200g rice"))
        ("30g 150kcal 10p 5l 8g"))).entries.map Entry.macros) :=
  ledger_totals_invariant _ _ _
    (Reachable.undo _ (Reachable.quick _ _ _ (Reachable.msg _ _ _ Reachable.init)))

/-- C2: undoing immediately after appending any entry restores the day
exactly: the removed entry is the appended one and both the entry list
and the totals return to their previous values. -/
theorem undo_inverse_of_append (d : DayRecord) (e : Entry) :
    undoDay (appendEntry d e) = some (e, d) ∧ undoState (appendEntry d e) = d := by
  have h : undoDay (appendEntry d e) = some (e, d) := by
    unfold undoDay appendEntry
    simp only [List.getLast?_concat, List.dropLast_concat, subM_addM_cancel]
  refine ⟨h, ?_⟩
  unfold undoState
  rw [h]

/-- C3: an undo request on a day with no entries reports the
empty-ledger condition and leaves the day unchanged; on a day whose
entries end with e the undo removes exactly e and subtracts its macros
from the totals elementwise. -/
theorem undo_empty_reports_and_nonempty_pops (d : DayRecord) :
    (d.entries = [] → undoDay d = none ∧ undoState d = d) ∧
    (∀ l e, d.entries = l ++ [e] →
      undoDay d = some (e, ⟨l, subM d.totals e.macros⟩) ∧
      undoState d = ⟨l, subM d.totals e.macros⟩) := by
  constructor
  · intro h
    unfold undoState undoDay
    rw [h]
    simp
  · intro l e h
    unfold undoState undoDay
    rw [h]
    simp [List.getLast?_concat, List.dropLast_concat]

/-- Witness for C3: the empty day reports the empty-ledger condition
unchanged, and a one-entry day pops exactly its entry. -/
theorem undo_empty_reports_and_nonempty_pops_witness :
    (undoDay ⟨[], zeroM⟩ = none ∧ undoState ⟨[], zeroM⟩ = ⟨[], zeroM⟩) ∧
    undoDay ⟨[⟨("oeuf"), 60, ⟨93, 39/5, 33/5, 3/5⟩, ("09:00")⟩], ⟨93, 39/5, 33/5, 3/5⟩⟩
      = some (⟨("oeuf"), 60, ⟨93, 39/5, 33/5, 3/5⟩, ("09:00")⟩,
          ⟨[], subM ⟨93, 39/5, 33/5, 3/5⟩ ⟨93, 39/5, 33/5, 3/5⟩⟩) :=
  ⟨(undo_empty_reports_and_nonempty_pops ⟨[], zeroM⟩).1 rfl,
   ((undo_empty_reports_and_nonempty_pops _).2 []
      ⟨("oeuf"), 60, ⟨93, 39/5, 33/5, 3/5⟩, ("09:00")⟩ rfl).1⟩

/-! The decimal-separator and segmentation claims. -/

theorem resolveGrams_nilcat (q : ℚ) (f : String) : resolveGrams [] [] [] q f = q := by
  show (if q ≤ 20 then bareCount [] [] q f else q) = q
  rw [show bareCount [] [] q f = q from rfl]
  exact ite_self q

/-- C4: evaluation of the code at the failing inputs of the
decimal-separator claim.  The message-level split of parse_food_entry
consumes the comma of the input before the quantity pattern can read it,
so the comma form and the dot form diverge: the text with a comma splits
into the item 1, which matches neither pattern and is dropped, and the
item 5l, which parses as the food l weighing five grams; the text with a
dot parses as the food l weighing one and a half grams, the trailing
unit letter being captured as the food text.  Neither input yields 1500
grams and the two inputs disagree. -/
theorem decimal_separator_failing_inputs :
    parse_food_entry [] [] ("1,5l") = [⟨("l"), 5, none⟩] ∧
    parse_food_entry [] [] ("1.5l") = [⟨("l"), 3/2, none⟩] ∧
    parse_food_entry [] [] ("1,5l") ≠ parse_food_entry [] [] ("1.5l") := by
  have hval : pyFloat (("1.5").data) = 3/2 := by
    show ((1 : Nat) : ℚ) + ((5 : Nat) : ℚ) / (10 : ℚ) ^ (1 : Nat) = 3/2
    push_cast
    norm_num
  have h1 : parse_food_entry [] [] ("1,5l") = [⟨("l"), 5, none⟩] := by decide
  have h2 : parse_food_entry [] [] ("1.5l") = [⟨("l"), 3/2, none⟩] := by
    calc parse_food_entry [] [] ("1.5l")
        = [⟨("l"), resolveGrams [] [] [] (pyFloat (("1.5").data)) ("l"), none⟩] := rfl
      _ = [⟨("l"), pyFloat (("1.5").data), none⟩] := by rw [resolveGrams_nilcat]
      _ = [⟨("l"), 3/2, none⟩] := by rw [hval]
  refine ⟨h1, h2, ?_⟩
  rw [h1, h2]
  simp only [ne_eq, List.cons.injEq, Decl.mk.injEq, and_true, true_and, not_and]
  intro h
  norm_num at h

/-- C5: counterexample to splitting on the conjunction word and: the
example input of the claim yields two declarations, not three, because
parse_food_entry splits on the French word et. -/
theorem and_conjunction_counterexample :
    (parse_food_entry [] [] ("200g rice, 2 eggs and 1 yogurt")).length = 2 ∧
    ¬ (parse_food_entry [] [] ("200g rice, 2 eggs and 1 yogurt")).length = 3 := by
  exact ⟨by decide, by decide⟩

/-- C5 as amended: the parser segments the message by splitting on
comma, newline, or the literal French conjunction word et between word
boundaries, discarding empty segments after trimming, so the corrected
example yields exactly three declarations whose food names appear in the
same order as in the input text, and a message wrapped in empty segments
yields only its real item. -/
theorem et_conjunction_splitting (db : List (String × Macros)) (su : List (String × ℚ)) :
    (parse_food_entry db su ("200g rice, 2 eggs et 1 yogurt")).map Decl.food
      = [("rice"), ("eggs"), ("yogurt")] ∧
    (parse_food_entry db su (",, 200g rice ,\n")).map Decl.food = [("rice")] :=
  ⟨rfl, rfl⟩

/-! The bare-count inference claim. -/

theorem isPrefixOf_refl_char (l : List Char) : l.isPrefixOf l = true := by
  induction l with
  | nil => rfl
  | cons c r ih => simp [List.isPrefixOf, ih]

theorem substrList_self (a : List Char) : substrList a a = true := by
  cases a with
  | nil => rfl
  | cons c r => simp [substrList, isPrefixOf_refl_char]

/-- The per-unit weight as the claim words it, written independently of
the code: the weight of the first standard-unit name related to the food
name by substring containment in either direction, else the
standard-unit weight recorded for the exact food name. -/
def unitWeightSpec (su : List (String × ℚ)) (food : String) : Option ℚ :=
  match su.find? (fun p => substrList p.1.data food.data || substrList food.data p.1.data) with
  | some p => some p.2
  | none => (su.find? (fun p => p.1 == food)).map (fun p => p.2)

/-- C6: with no explicit unit and a quantity of at most 20 the resolved
grams are the quantity times the per-unit weight found first by substring
match in either direction and else by the exact-name standard-unit
entry, the bare quantity when no weight exists; a quantity above 20 is
taken as grams directly.  The end-to-end instance: the message 2 eggs
with an egg standard weight of 60 resolves to 120 grams under any
catalog.  The standard-unit weights are assumed nonzero, as the spec
describes them as unit weights in grams. -/
theorem bare_count_unit_inference (su : List (String × ℚ)) (db : List (String × Macros))
    (q : ℚ) (food : String) (hw : ∀ p ∈ su, p.2 ≠ 0) :
    (q ≤ 20 → resolveGrams su db [] q food =
      (match unitWeightSpec su food with
       | some w => q * w
       | none => q)) ∧
    (¬ q ≤ 20 → resolveGrams su db [] q food = q) ∧
    (∀ db2, (parse_food_entry db2 [(("egg"), 60)] ("2 eggs")).map
        (fun d => (d.food, d.grams)) = [(("eggs"), 120)]) := by
  refine ⟨?_, ?_, ?_⟩
  · intro hq
    show (if q ≤ 20 then bareCount su db q food else q) = _
    rw [if_pos hq]
    unfold bareCount unitWeightSpec
    cases hfind : su.find?
        (fun p => substrList p.1.data food.data || substrList food.data p.1.data) with
    | some p =>
      dsimp only
      rw [if_pos (hw p (List.mem_of_find?_eq_some hfind))]
    | none =>
      dsimp only
      unfold bareFallback
      cases hinfo : get_food_info db food with
      | some fi =>
        cases hf2 : su.find? (fun p => p.1 == food) with
        | some p2 =>
          exfalso
          have hmem := List.mem_of_find?_eq_some hf2
          have heq : p2.1 = food := by
            have := List.find?_some hf2
            simpa using this
          have hfalse := List.find?_eq_none.mp hfind p2 hmem
          rw [heq] at hfalse
          simp [substrList_self] at hfalse
        | none => simp
      | none =>
        cases hf2 : su.find? (fun p => p.1 == food) with
        | some p2 =>
          exfalso
          have hmem := List.mem_of_find?_eq_some hf2
          have heq : p2.1 = food := by
            have := List.find?_some hf2
            simpa using this
          have hfalse := List.find?_eq_none.mp hfind p2 hmem
          rw [heq] at hfalse
          simp [substrList_self] at hfalse
        | none => simp
  · intro hq
    show (if q ≤ 20 then bareCount su db q food else q) = q
    rw [if_neg hq]
  · intro db2
    calc (parse_food_entry db2 [(("egg"), 60)] ("2 eggs")).map (fun d => (d.food, d.grams))
        = [(("eggs"), pyFloat (("2").data) * 60)] := rfl
      _ = [(("eggs"), 120)] := by
          rw [show pyFloat (("2").data) = (2 : ℚ) from by decide]
          norm_num

/-- Witness for C6: the quantity two with the egg standard unit of
weight 60 goes through the substring pass. -/
theorem bare_count_unit_inference_witness :
    resolveGrams [(("egg"), 60)] [] [] 2 ("eggs")
      = (match unitWeightSpec [(("egg"), 60)] ("eggs") with
         | some w => (2 : ℚ) * w
         | none => (2 : ℚ)) :=
  (bare_count_unit_inference [(("egg"), 60)] [] 2 ("eggs") (by decide)).1 (by decide)

/-! The unresolved-food claim. -/

/-- C7: a parsed item whose food name has no catalog entry still yields
a declaration carrying the name and the resolved grams with no macros;
the message handler appends nothing for it and leaves the day unchanged,
while resolved items of the same message are still recorded with their
scaled macros added into the totals in the same step. -/
theorem unresolved_food_skipped (db : List (String × Macros)) (su : List (String × ℚ))
    (t : String) (d : DayRecord) (h : get_food_info db ("unicornmeat") = none) :
    parse_food_entry db su ("200g unicornmeat") = [⟨("unicornmeat"), 200, none⟩] ∧
    handle_food_message db su t d ("200g unicornmeat") = d ∧
    (∀ su2 t2 d2, handle_food_message [(("rice"), ⟨130, 27/10, 3/10, 28⟩)] su2 t2 d2
        ("200g rice, 200g unicornmeat")
      = ⟨d2.entries ++ [⟨("rice"), 200, ⟨260, 27/5, 3/5, 56⟩, t2⟩],
         addM d2.totals ⟨260, 27/5, 3/5, 56⟩⟩) := by
  have hq : pyFloat (("200").data) = (200 : ℚ) := by decide
  have h1 : parse_food_entry db su ("200g unicornmeat")
      = [⟨("unicornmeat"), pyFloat (("200").data),
          (get_food_info db ("unicornmeat")).map
            (fun fi => scaleMacros fi (pyFloat (("200").data)))⟩] := rfl
  rw [h, hq] at h1
  simp only [Option.map_none'] at h1
  refine ⟨h1, ?_, ?_⟩
  · unfold handle_food_message
    rw [h1]
    rfl
  · intro su2 t2 d2
    have hm : scaleMacros ⟨130, 27/10, 3/10, 28⟩ (200 : ℚ) = ⟨260, 27/5, 3/5, 56⟩ := by
      simp only [scaleMacros, Macros.mk.injEq]
      norm_num
    have h3 : parse_food_entry [(("rice"), ⟨130, 27/10, 3/10, 28⟩)] su2
        ("200g rice, 200g unicornmeat")
        = [⟨("rice"), pyFloat (("200").data),
            some (scaleMacros ⟨130, 27/10, 3/10, 28⟩ (pyFloat (("200").data)))⟩,
           ⟨("unicornmeat"), pyFloat (("200").data), none⟩] := rfl
    rw [hq, hm] at h3
    unfold handle_food_message
    rw [h3]
    rfl

/-- Witness for C7 at the empty catalog. -/
theorem unresolved_food_skipped_witness :
    parse_food_entry [] [] ("200g unicornmeat") = [⟨("unicornmeat"), 200, none⟩] :=
  (unresolved_food_skipped [] [] ("12:00") initDay rfl).1

/-! The retention claim. -/

/-- C8: the retention pass deletes exactly the day records strictly
older than the reference day minus the retention window and keeps every
other record; with a window of three days a record dated five days
before the reference is removed and one dated two days before is kept. -/
theorem prune_retention (reference retain : ℤ) (L : List (ℤ × DayRecord)) (p : ℤ × DayRecord) :
    (p ∈ prune reference retain L ↔ p ∈ L ∧ ¬ (p.1 < reference - retain)) ∧
    prune 0 3 [(-5, initDay), (-2, initDay)] = [(-2, initDay)] := by
  constructor
  · simp [prune, List.mem_filter]
  · rfl

/-! The quick-add claim. -/

/-- C9: a quick-add message in the with-grams form records exactly the
literal macro numerals of the text, unscaled by the grams field, which
only sets the recorded quantity of the appended entry; the no-grams form
substitutes one hundred grams; the concrete instances of the spec both
produce the same literal macros. -/
theorem quickadd_literal_macros
    (s s2 : String) (g k p li c k2 p2 li2 c2 : List Char)
    (hpipe : s.data.contains '|' = false)
    (hm : ((patternQA (pyLower s.data)).head?).map Prod.fst = some (g, k, p, li, c))
    (hpipe2 : s2.data.contains '|' = false)
    (hm2fail : ((patternQA (pyLower s2.data)).head?).map Prod.fst = none)
    (hm2 : ((patternQANoQty (pyLower s2.data)).head?).map Prod.fst = some (k2, p2, li2, c2)) :
    quickAddParse s = some (pyFloat g, ⟨pyFloat k, pyFloat p, pyFloat li, pyFloat c⟩) ∧
    (∀ t d, quickAddApply t d s
      = appendEntry d ⟨("ajout manuel"), pyFloat g,
          ⟨pyFloat k, pyFloat p, pyFloat li, pyFloat c⟩, t⟩) ∧
    quickAddParse s2 = some (100, ⟨pyFloat k2, pyFloat p2, pyFloat li2, pyFloat c2⟩) ∧
    quickAddParse ("30g 150kcal 10p 5l 8g") = some (30, ⟨150, 10, 5, 8⟩) ∧
    quickAddParse ("150kcal 10p 5l 8g") = some (100, ⟨150, 10, 5, 8⟩) := by
  obtain ⟨r1, hr1⟩ : ∃ r, (patternQA (pyLower s.data)).head? = some ((g, k, p, li, c), r) := by
    cases ho : (patternQA (pyLower s.data)).head? with
    | none => rw [ho] at hm; simp at hm
    | some x =>
      obtain ⟨x1, x2⟩ := x
      rw [ho] at hm
      simp only [Option.map_some', Option.some.injEq] at hm
      exact ⟨x2, by rw [hm]⟩
  obtain ⟨r2, hr2⟩ : ∃ r, (patternQANoQty (pyLower s2.data)).head?
      = some ((k2, p2, li2, c2), r) := by
    cases ho : (patternQANoQty (pyLower s2.data)).head? with
    | none => rw [ho] at hm2; simp at hm2
    | some x =>
      obtain ⟨x1, x2⟩ := x
      rw [ho] at hm2
      simp only [Option.map_some', Option.some.injEq] at hm2
      exact ⟨x2, by rw [hm2]⟩
  have hfail : (patternQA (pyLower s2.data)).head? = none := Option.map_eq_none'.mp hm2fail
  have hq1 : quickAddParse s = some (pyFloat g, ⟨pyFloat k, pyFloat p, pyFloat li, pyFloat c⟩) := by
    unfold quickAddParse
    rw [hpipe, hr1]
    rfl
  refine ⟨hq1, ?_, ?_, by decide, by decide⟩
  · intro t d
    unfold quickAddApply
    rw [hq1]
  · unfold quickAddParse
    rw [hpipe2, hfail, hr2]
    rfl

/-- Witness for C9 at the two spec instances. -/
theorem quickadd_literal_macros_witness :
    quickAddParse ("30g 150kcal 10p 5l 8g")
      = some (pyFloat (("30").data),
          ⟨pyFloat (("150").data), pyFloat (("10").data),
           pyFloat (("5").data), pyFloat (("8").data)⟩) :=
  (quickadd_literal_macros ("30g 150kcal 10p 5l 8g") ("150kcal 10p 5l 8g")
    (("30").data) (("150").data) (("10").data) (("5").data) (("8").data)
    (("150").data) (("10").data) (("5").data) (("8").data)
    (by decide) (by decide) (by decide) (by decide) (by decide)).1

/-! The refinement claim: the exact-name fall-back branch of the
bare-count path is unreachable. -/

theorem bareCount_eq_nofb (su : List (String × ℚ)) (db : List (String × Macros))
    (q : ℚ) (food : String) (hw : ∀ p ∈ su, p.2 ≠ 0) :
    bareCount su db q food = bareCountNF su q food := by
  unfold bareCount bareCountNF
  cases hfind : su.find?
      (fun p => substrList p.1.data food.data || substrList food.data p.1.data) with
  | some p =>
    dsimp only
    rw [if_pos (hw p (List.mem_of_find?_eq_some hfind)),
        if_pos (hw p (List.mem_of_find?_eq_some hfind))]
  | none =>
    dsimp only
    unfold bareFallback
    cases hinfo : get_food_info db food with
    | some fi =>
      cases hf2 : su.find? (fun p => p.1 == food) with
      | some p2 =>
        exfalso
        have hmem := List.mem_of_find?_eq_some hf2
        have heq : p2.1 = food := by
          have := List.find?_some hf2
          simpa using this
        have hfalse := List.find?_eq_none.mp hfind p2 hmem
        rw [heq] at hfalse
        simp [substrList_self] at hfalse
      | none => rfl
    | none => rfl

theorem resolveGrams_eq_nofb (su : List (String × ℚ)) (db : List (String × Macros))
    (u : List Char) (q : ℚ) (food : String) (hw : ∀ p ∈ su, p.2 ≠ 0) :
    resolveGrams su db u q food = resolveGramsNF su u q food := by
  unfold resolveGrams resolveGramsNF
  split <;> try rfl
  rw [bareCount_eq_nofb su db q food hw]

theorem parseItemWith_eq_nofb (su : List (String × ℚ)) (db : List (String × Macros))
    (it : List Char) (hw : ∀ p ∈ su, p.2 ≠ 0) :
    parseItemWith (resolveGrams su db) db it = parseItemWith (resolveGramsNF su) db it := by
  unfold parseItemWith mkDeclWith
  cases (pattern1 it).head? with
  | some r => simp only [resolveGrams_eq_nofb su db _ _ _ hw]
  | none =>
    cases (patternInv it).head? with
    | some r => simp only [resolveGrams_eq_nofb su db _ _ _ hw]
    | none => rfl

/-- C10: the exact-name fall-back branch of the bare-count path is
unreachable when every standard-unit weight is nonzero, because a food
name that is exactly a standard-unit key is found by the substring pass
already; the parser with the branch removed is extensionally equal to
the parser as written.  The weights are nonzero for the standard-unit
table the spec describes, whose values are positive unit weights in
grams; a zero weight would be falsy in the source and escape the
substring pass. -/
theorem fallback_branch_unreachable (db : List (String × Macros)) (su : List (String × ℚ))
    (text : String) (hw : ∀ p ∈ su, p.2 ≠ 0) :
    parse_food_entry db su text = parse_food_entry_nofb db su text := by
  unfold parse_food_entry parse_food_entry_nofb
  apply List.filterMap_congr
  intro x _
  dsimp only
  rw [parseItemWith_eq_nofb su db (pyStrip x) hw]

/-- Witness for C10 at the egg standard unit. -/
theorem fallback_branch_unreachable_witness :
    parse_food_entry [] [(("egg"), 60)] ("2 eggs")
      = parse_food_entry_nofb [] [(("egg"), 60)] ("2 eggs") :=
  fallback_branch_unreachable [] [(("egg"), 60)] ("2 eggs") (by decide)
